import Mathlib

/-!
Shallow embedding of the AutoFinanceCalculator repository
(`src/main.py`, `src/backup.py`): a Streamlit personal-finance dashboard
that categorizes CSV bank transactions by exact keyword lookup,
maintains two persisted JSON documents (categories, budgets), and
aggregates debit rows into budget-joined category totals.

Python strings are modelled by Lean `String`; Python `dict` (which
preserves insertion order) by association lists `List (String × α)`;
Python `float` by `ℚ`; a raised exception by `Option.none` / an error
result.  All definitions are translated from the source; functions of
external libraries (pandas CSV coercion, `float()`, `to_datetime`) are
modelled only as far as the repository relies on them.
-/

set_option maxRecDepth 1000000

namespace FinApp

/-- Model of Python `str.strip()` on a character list: drop whitespace
from both ends. -/
def stripChars (l : List Char) : List Char :=
  (l.dropWhile Char.isWhitespace).rdropWhile Char.isWhitespace

/-- Model of Python `str.strip()`. -/
def pyStrip (s : String) : String := ⟨stripChars s.data⟩

/-- Model of Python `str.lower()` (ASCII case folding, which is all the
repository's data uses). -/
def pyLower (s : String) : String := ⟨s.data.map Char.toLower⟩

/-- Association-list lookup, the model of Python `d[k]` / `k in d` for
an insertion-ordered `dict`. -/
def lookupA {α : Type} : List (String × α) → String → Option α
  | [], _ => none
  | (k, v) :: t, key => if k = key then some v else lookupA t key

/-- Replace the value stored at an existing key, keeping its position
(the model of `d[k] = v` when `k` is already present, and of mutating
`d[k]` in place). -/
def updateA {α : Type} : List (String × α) → String → α → List (String × α)
  | [], _, _ => []
  | (k, v) :: t, key, newV =>
    if k = key then (k, newV) :: t else (k, v) :: updateA t key newV

/-- Model of Python `dict.setdefault(k, v)`: keep an existing entry,
otherwise append `(k, v)` at the end. -/
def setdefaultA {α : Type} (l : List (String × α)) (key : String) (v : α) :
    List (String × α) :=
  if (lookupA l key).isSome then l else l ++ [(key, v)]

/-- Model of Python `d[k] = v`: overwrite in place when present,
append otherwise. -/
def setA {α : Type} (l : List (String × α)) (key : String) (v : α) :
    List (String × α) :=
  if (lookupA l key).isSome then updateA l key v else l ++ [(key, v)]

/-- One transaction row of the in-memory dataframe: parsed `Date`
(year, month, day), free-text `Details`, numeric `Amount`,
`Debit/Credit` flag, and the assigned `Category` column. -/
structure Row where
  date : ℕ × ℕ × ℕ
  details : String
  amount : ℚ
  flag : String
  category : String
deriving DecidableEq

/-- `keyword.lower().strip()` applied to a stored keyword
(`main.py` line 49). -/
def lowerStripKw (k : String) : String := pyStrip (pyLower k)

/-- One iteration of the outer loop of `categorize_transactions`
(`main.py` lines 45-53): skip `"Uncategorized"` and empty keyword
lists, otherwise overwrite the category of every row whose lowercased
details equal one of the lowered-and-stripped keywords. -/
def categorizeStep (rows : List Row) (category : String) (keywords : List String) :
    List Row :=
  if category = "Uncategorized" ∨ keywords = [] then rows
  else
    rows.map fun r =>
      if pyLower r.details ∈ keywords.map lowerStripKw then
        { r with category := category }
      else r

/-- `categorize_transactions(df)` (`main.py` lines 42-55): set every
row's category to `"Uncategorized"`, then run the keyword scan for each
category of the store in insertion order. -/
def categorize_transactions (cats : List (String × List String)) (rows : List Row) :
    List Row :=
  cats.foldl (fun acc p => categorizeStep acc p.1 p.2)
    (rows.map fun r => { r with category := "Uncategorized" })

/-- Per-row effect of one outer-loop iteration. -/
def stepRow (p : String × List String) (r : Row) : Row :=
  if p.1 ≠ "Uncategorized" ∧ p.2 ≠ [] ∧ pyLower r.details ∈ p.2.map lowerStripKw then
    { r with category := p.1 }
  else r

/-- The category kept by the scan: the last store entry (in insertion
order) that is not `"Uncategorized"`, has keywords, and matches the
details. -/
def lastMatch (cats : List (String × List String)) (details : String) :
    Option String :=
  cats.foldl
    (fun acc p =>
      if p.1 ≠ "Uncategorized" ∧ p.2 ≠ [] ∧ pyLower details ∈ p.2.map lowerStripKw then
        some p.1
      else acc)
    none

/--
The persistent state of the application: the two in-memory documents
held in `st.session_state` (`categories`, `budgets`) and the two
on-disk JSON documents (`categories.json`, `budgets.json`; `none`
models a file that does not exist yet).
-/
structure Store where
  categories : List (String × List String)
  budgets : List (String × ℚ)
  catDisk : Option (List (String × List String))
  budDisk : Option (List (String × ℚ))
deriving DecidableEq

/-- `save_categories()` (`main.py` lines 32-34): dump the in-memory
category document wholesale to disk. -/
def save_categories (s : Store) : Store := { s with catDisk := some s.categories }

/-- `save_budgets()` (`main.py` lines 37-39). -/
def save_budgets (s : Store) : Store := { s with budDisk := some s.budgets }

/--
`add_keyword_to_category(category, keyword)` (`main.py` lines 70-76).
The trimmed keyword is tested for truthiness first (Python `and`
short-circuits), so an empty keyword returns `False` without touching
the store; a nonempty keyword indexes
`st.session_state.categories[category]`, which raises `KeyError` when
the category is unknown — modelled as `none`.  On success the keyword
is appended and the category document saved.
-/
def add_keyword_to_category (s : Store) (category keyword : String) :
    Option (Store × Bool) :=
  let kw := pyStrip keyword
  if kw = "" then some (s, false)
  else
    match lookupA s.categories category with
    | none => none
    | some kws =>
      if kw ∉ kws then
        some
          (save_categories
            { s with categories := updateA s.categories category (kws ++ [kw]) },
          true)
      else some (s, false)

/-- The add-category branch of `main()` (`main.py` lines 99-106):
guarded by a nonempty input and by absence from the category document;
creates an empty keyword list, `setdefault`s a `0.0` budget entry, and
saves both documents. -/
def add_category (s : Store) (name : String) : Store :=
  if name ≠ "" ∧ lookupA s.categories name = none then
    let cats := s.categories ++ [(name, [])]
    let buds := setdefaultA s.budgets name 0
    { categories := cats, budgets := buds, catDisk := some cats, budDisk := some buds }
  else s

/-- The budget `number_input` assignment (`main.py` lines 112-121):
`st.session_state.budgets[cat] = value`, in memory only. -/
def set_budget (s : Store) (cat : String) (v : ℚ) : Store :=
  { s with budgets := setA s.budgets cat v }

/-- One learning event of the Apply Changes loop (`main.py` lines
144-153): the row's edited category and its details are fed to
`add_keyword_to_category`; a raised `KeyError` leaves the store
unchanged. -/
def apply_change (s : Store) (newCat details : String) : Store :=
  match add_keyword_to_category s newCat details with
  | some (s', _) => s'
  | none => s

/-- The startup sequence (`main.py` lines 12-29): in-memory defaults,
overwritten by each document that exists on disk, then every category
is `setdefault`ed to a `0.0` budget. -/
def startup (catDoc : Option (List (String × List String)))
    (budDoc : Option (List (String × ℚ))) : Store :=
  let cats := catDoc.getD [("Uncategorized", [])]
  let buds := cats.foldl (fun b p => setdefaultA b p.1 0) (budDoc.getD [])
  { categories := cats, budgets := buds, catDisk := catDoc, budDisk := budDoc }

/-- The state of a fresh installation: no JSON documents on disk. -/
def initStore : Store := startup none none

/-- The store-mutating operations the user interface can trigger. -/
inductive Op where
  | addCategory (name : String)
  | applyChange (newCat : String) (details : String)
  | setBudget (cat : String) (v : ℚ)
  | saveBudgets
  | restart
deriving DecidableEq

def runOp (s : Store) : Op → Store
  | .addCategory n => add_category s n
  | .applyChange c d => apply_change s c d
  | .setBudget c v => set_budget s c v
  | .saveBudgets => save_budgets s
  | .restart => startup s.catDisk s.budDisk

def runOps (s : Store) (ops : List Op) : Store := ops.foldl runOp s

/-- An operation that never targets the reserved category with a
keyword write: every `applyChange` reassigns to a category other than
`"Uncategorized"`. -/
def opAllowed : Op → Bool
  | .applyChange c _ => c ≠ "Uncategorized"
  | _ => true

/-- Model of Python `round(x, 1)` on exact rationals: round to one
decimal place. -/
def roundTo1 (x : ℚ) : ℚ := (round (x * 10) : ℤ) / 10

/-- The `% Used` column (`main.py` lines 164-167):
`round((amount / budget) * 100, 1) if budget > 0 else 0.0`. -/
def percent_used (amount budget : ℚ) : ℚ :=
  if budget > 0 then roundTo1 (amount / budget * 100) else 0

/-- Sum of the amounts of the rows carrying category `c`, the group sum
of `groupby("Category")["Amount"].sum()`. -/
def groupSum (rows : List Row) (c : String) : ℚ :=
  ((rows.filter fun r => r.category = c).map Row.amount).sum

/-- `groupby("Category")["Amount"].sum().reset_index()` (`main.py` line
156): one row per distinct category (pandas emits group keys sorted),
no zero-fill for categories without rows. -/
def groupedTotals (rows : List Row) : List (String × ℚ) :=
  (List.insertionSort (· ≤ ·) (rows.map Row.category).dedup).map
    fun c => (c, groupSum rows c)

/-- `sort_values(by="Amount", ascending=False)` (`main.py` line 157). -/
def sortByAmountDesc (l : List (String × ℚ)) : List (String × ℚ) :=
  List.insertionSort (fun a b => b.2 ≤ a.2) l

/-- One row of the Expense Summary table. -/
structure TotalsRow where
  category : String
  amount : ℚ
  budget : ℚ
  remaining : ℚ
  percentUsed : ℚ
deriving DecidableEq

/-- The Expense Summary table (`main.py` lines 156-167): grouped debit
totals, sorted by amount descending, joined with the budget document
(`0.0` default), with `Remaining` and `% Used` columns. -/
def expense_summary (budgets : List (String × ℚ)) (debits : List Row) :
    List TotalsRow :=
  (sortByAmountDesc (groupedTotals debits)).map fun p =>
    { category := p.1
      amount := p.2
      budget := (lookupA budgets p.1).getD 0
      remaining := (lookupA budgets p.1).getD 0 - p.2
      percentUsed := percent_used p.2 ((lookupA budgets p.1).getD 0) }

/-- One raw CSV record under the fixed header
`Date, Details, Amount, Debit/Credit`. -/
structure RawRow where
  date : String
  details : String
  amount : String
  flag : String
deriving DecidableEq

/-- Digit-string to number; `none` on empty or non-digit input. -/
def parseDigits (l : List Char) : Option ℕ :=
  if l ≠ [] ∧ l.all Char.isDigit then
    some (l.foldl (fun n c => 10 * n + (c.toNat - 48)) 0)
  else none

/-- Decimal literal without sign: digits with an optional single
fractional part. -/
def parseDecimal (s : String) : Option ℚ :=
  match s.splitOn "." with
  | [ip] => (parseDigits ip.data).map fun n => (n : ℚ)
  | [ip, fp] =>
    match parseDigits ip.data, parseDigits fp.data with
    | some n, some f => some ((n : ℚ) + (f : ℚ) / (10 : ℚ) ^ fp.length)
    | _, _ => none
  | _ => none

/-- Model of the external coercion `float(...)` used by
`df["Amount"].astype(float)`: an optionally signed decimal literal
with surrounding whitespace tolerated; anything else raises, modelled
as `none`. -/
def parseFloat (s : String) : Option ℚ :=
  let t := pyStrip s
  match t.data with
  | '-' :: rest => (parseDecimal ⟨rest⟩).map fun q => -q
  | _ => parseDecimal t

/-- The `Amount` coercion of `load_transactions` (`main.py` line 62):
remove thousands-separator commas, then convert to float. -/
def parseAmount (s : String) : Option ℚ :=
  parseFloat ⟨s.data.filter fun c => c ≠ ','⟩

/-- Abbreviated month names of the `%b` directive. -/
def monthNum (m : String) : Option ℕ :=
  lookupA
    [("Jan", 1), ("Feb", 2), ("Mar", 3), ("Apr", 4), ("May", 5), ("Jun", 6),
     ("Jul", 7), ("Aug", 8), ("Sep", 9), ("Oct", 10), ("Nov", 11), ("Dec", 12)]
    m

/-- Model of the external parser `pd.to_datetime(·, format="%d %b %Y")`
(`main.py` line 63): two-digit-at-most day, abbreviated month name,
four-digit year; anything else raises, modelled as `none`. -/
def parseDate (s : String) : Option (ℕ × ℕ × ℕ) :=
  match s.splitOn " " with
  | [d, m, y] =>
    match parseDigits d.data, monthNum m, parseDigits y.data with
    | some dd, some mm, some yy =>
      if 1 ≤ dd ∧ dd ≤ 31 ∧ y.length = 4 ∧ d.length ≤ 2 then some (yy, mm, dd)
      else none
    | _, _, _ => none
  | _ => none

/-- Required-column coercion of one record: both the amount and the
date must parse. -/
def parseRow (r : RawRow) : Option Row :=
  match parseAmount r.amount, parseDate r.date with
  | some a, some d =>
    some { date := d, details := r.details, amount := a, flag := r.flag, category := "" }
  | _, _ => none

/-- Coercion of the whole file: any failing record fails the load. -/
def parseRows : List RawRow → Option (List Row)
  | [] => some []
  | r :: t =>
    match parseRow r, parseRows t with
    | some row, some rest => some (row :: rest)
    | _, _ => none

/-- Result of `load_transactions`: a categorized row-set, or the single
`st.error` message of the `except` branch. -/
inductive LoadResult where
  | ok (rows : List Row)
  | err (msg : String)
deriving DecidableEq

/-- `load_transactions(file)` (`main.py` lines 58-67): parse and coerce
inside `try`, then categorize; any exception yields one error message
and no row-set. -/
def load_transactions (cats : List (String × List String)) (raws : List RawRow) :
    LoadResult :=
  match parseRows raws with
  | some rows => .ok (categorize_transactions cats rows)
  | none => .err "Error loading file"

/-- What `main()` renders for one upload: the user-visible error
messages, the Expense Summary table, and the Total Payments metric
(`none` for a view that is never built). -/
structure Render where
  errors : List String
  expenses : Option (List TotalsRow)
  totalPayments : Option ℚ
deriving DecidableEq

/-- The `main()` pipeline for an uploaded file (`main.py` lines
84-201): on load failure nothing downstream runs; otherwise rows are
split by the `Debit/Credit` flag, debits are aggregated into the
Expense Summary, and credits summed into Total Payments. -/
def run_pipeline (s : Store) (raws : List RawRow) : Render :=
  match load_transactions s.categories raws with
  | .err m => { errors := [m], expenses := none, totalPayments := none }
  | .ok rows =>
    { errors := []
      expenses := some (expense_summary s.budgets (rows.filter fun r => r.flag = "Debit"))
      totalPayments := some (((rows.filter fun r => r.flag = "Credit").map Row.amount).sum) }

/-- A sample uncategorized input row. -/
def rowCoffeeIn : Row :=
  { date := (2024, 1, 1), details := "Coffee Shop", amount := 1, flag := "Debit",
    category := "" }

/-- The same row as categorized by a store holding the keyword
`"coffee shop"` under `"Food"`. -/
def rowCoffeeOut : Row :=
  { date := (2024, 1, 1), details := "Coffee Shop", amount := 1, flag := "Debit",
    category := "Food" }

/-- A debit row whose details are the single keyword `"x"`. -/
def rowX : Row :=
  { date := (2024, 1, 1), details := "x", amount := 1, flag := "Debit",
    category := "" }

/-- A store with two categories, `"Food"` holding the keyword `"a"`. -/
def storeFoodA : Store :=
  { categories := [("Uncategorized", []), ("Food", ["a"])],
    budgets := [("Uncategorized", 0), ("Food", 0)],
    catDisk := none, budDisk := none }

/-- The reserved-bucket invariant: `"Uncategorized"` is present with an
empty keyword list, in memory and in any category document on disk. -/
def uncatInv (s : Store) : Prop :=
  lookupA s.categories "Uncategorized" = some []
  ∧ ∀ doc, s.catDisk = some doc → lookupA doc "Uncategorized" = some []

/-- The session state of the end-to-end example: category `"Food"`
with keyword `"coffee shop"` and budget `10.0`. -/
def storeC9 : Store :=
  { categories := [("Uncategorized", []), ("Food", ["coffee shop"])],
    budgets := [("Uncategorized", 0), ("Food", 10)],
    catDisk := none, budDisk := none }

/-- The three CSV records of the end-to-end example. -/
def rawsC9 : List RawRow :=
  [{ date := "01 Jan 2024", details := "Coffee Shop", amount := "4.50", flag := "Debit" },
   { date := "02 Jan 2024", details := "Coffee Shop", amount := "3.20", flag := "Debit" },
   { date := "03 Jan 2024", details := "Salary", amount := "2000.00", flag := "Credit" }]

/-- The expected single Expense Summary row of the end-to-end
example. -/
def totalsC9 : TotalsRow :=
  { category := "Food", amount := 77 / 10, budget := 10, remaining := 23 / 10,
    percentUsed := 77 }

/-- A file whose `Amount` column cannot be coerced to a number. -/
def rawsBadAmount : List RawRow :=
  [{ date := "01 Jan 2024", details := "x", amount := "abc", flag := "Debit" }]

theorem stripChars_idem (l : List Char) :
    stripChars (stripChars l) = stripChars l := by
  unfold stripChars
  have h1 : ((l.dropWhile Char.isWhitespace).rdropWhile Char.isWhitespace).dropWhile
      Char.isWhitespace
      = (l.dropWhile Char.isWhitespace).rdropWhile Char.isWhitespace := by
    rw [List.dropWhile_eq_self_iff]
    intro hl
    obtain ⟨t, ht⟩ := List.rdropWhile_prefix Char.isWhitespace (l.dropWhile Char.isWhitespace)
    have hlen : 0 < (l.dropWhile Char.isWhitespace).length := by
      rw [← ht, List.length_append]
      omega
    have hget := List.dropWhile_get_zero_not Char.isWhitespace l hlen
    have h' : 0 < ((l.dropWhile Char.isWhitespace).rdropWhile Char.isWhitespace
        ++ t).length := by
      rw [ht]; exact hlen
    have heq : ((l.dropWhile Char.isWhitespace).rdropWhile Char.isWhitespace).get ⟨0, hl⟩
        = (l.dropWhile Char.isWhitespace).get ⟨0, hlen⟩ := by
      have e1 : (((l.dropWhile Char.isWhitespace).rdropWhile Char.isWhitespace)
            ++ t).get ⟨0, h'⟩
          = ((l.dropWhile Char.isWhitespace).rdropWhile Char.isWhitespace).get ⟨0, hl⟩ :=
        List.get_append_left _ t hl
      have e2 := List.get_of_eq ht ⟨0, h'⟩
      exact e1.symm.trans e2
    rw [heq]
    exact hget
  rw [h1, List.rdropWhile_idempotent]

theorem pyStrip_idem (s : String) : pyStrip (pyStrip s) = pyStrip s :=
  congrArg String.mk (stripChars_idem s.data)

theorem lookupA_updateA_self {α : Type} (l : List (String × α)) (key : String) (v : α)
    (h : (lookupA l key).isSome) : lookupA (updateA l key v) key = some v := by
  induction l with
  | nil => simp [lookupA] at h
  | cons p t ih =>
    by_cases hk : p.1 = key
    · simp [lookupA, updateA, hk]
    · simp [lookupA, updateA, hk] at h ⊢
      exact ih h

theorem lookupA_updateA_ne {α : Type} (l : List (String × α)) (key key' : String) (v : α)
    (h : key' ≠ key) : lookupA (updateA l key v) key' = lookupA l key' := by
  induction l with
  | nil => simp [updateA]
  | cons p t ih =>
    by_cases hk : p.1 = key
    · subst hk
      simp [lookupA, updateA, Ne.symm h]
    · simp only [updateA, if_neg hk, lookupA]
      by_cases hk' : p.1 = key'
      · simp [hk']
      · simp [hk', ih]

theorem lookupA_append_of_some {α : Type} (l t : List (String × α)) (key : String)
    (v : α) (h : lookupA l key = some v) : lookupA (l ++ t) key = some v := by
  induction l with
  | nil => simp [lookupA] at h
  | cons p l' ih =>
    by_cases hk : p.1 = key
    · simpa [lookupA, hk] using h
    · simp [lookupA, hk] at h ⊢
      exact ih h

theorem lookupA_append_of_none {α : Type} (l t : List (String × α)) (key : String)
    (h : lookupA l key = none) : lookupA (l ++ t) key = lookupA t key := by
  induction l with
  | nil => simp
  | cons p l' ih =>
    by_cases hk : p.1 = key
    · simp [lookupA, hk] at h
    · simp [lookupA, hk] at h ⊢
      exact ih h

theorem categorizeStep_eq_map (rows : List Row) (p : String × List String) :
    categorizeStep rows p.1 p.2 = rows.map (stepRow p) := by
  unfold categorizeStep stepRow
  by_cases h : p.1 = "Uncategorized" ∨ p.2 = []
  · rw [if_pos h]
    have : ∀ r : Row,
        (if p.1 ≠ "Uncategorized" ∧ p.2 ≠ [] ∧
            pyLower r.details ∈ p.2.map lowerStripKw then
          { r with category := p.1 }
        else r) = r := by
      intro r
      rw [if_neg]
      tauto
    simp only [this]
    exact (List.map_id' rows).symm
  · rw [if_neg h]
    push_neg at h
    apply List.map_congr_left
    intro r _
    by_cases hm : pyLower r.details ∈ p.2.map lowerStripKw
    · rw [if_pos hm, if_pos ⟨h.1, h.2, hm⟩]
    · rw [if_neg hm, if_neg]
      tauto

theorem foldl_categorizeStep_eq_map (cats : List (String × List String))
    (rows : List Row) :
    cats.foldl (fun acc p => categorizeStep acc p.1 p.2) rows
      = rows.map fun r => cats.foldl (fun r' p => stepRow p r') r := by
  induction cats generalizing rows with
  | nil => simp
  | cons p t ih =>
    simp only [List.foldl_cons]
    rw [categorizeStep_eq_map rows p, ih (rows.map (stepRow p)), List.map_map]
    rfl

theorem stepRow_details (p : String × List String) (r : Row) :
    (stepRow p r).details = r.details := by
  unfold stepRow
  by_cases h : p.1 ≠ "Uncategorized" ∧ p.2 ≠ [] ∧ pyLower r.details ∈ p.2.map lowerStripKw
  · rw [if_pos h]
  · rw [if_neg h]

theorem foldl_stepRow_exists (cats : List (String × List String)) (r : Row) :
    ∃ c, cats.foldl (fun r' p => stepRow p r') r = { r with category := c } := by
  induction cats generalizing r with
  | nil => exact ⟨r.category, rfl⟩
  | cons p t ih =>
    simp only [List.foldl_cons]
    unfold stepRow
    by_cases h : p.1 ≠ "Uncategorized" ∧ p.2 ≠ [] ∧ pyLower r.details ∈ p.2.map lowerStripKw
    · rw [if_pos h]
      exact ih { r with category := p.1 }
    · rw [if_neg h]
      exact ih r

theorem lastMatch_acc_or (cats : List (String × List String)) (details : String)
    (a : Option String) :
    cats.foldl
        (fun acc p =>
          if p.1 ≠ "Uncategorized" ∧ p.2 ≠ [] ∧
              pyLower details ∈ p.2.map lowerStripKw then
            some p.1
          else acc)
        a
      = (lastMatch cats details).or a := by
  induction cats generalizing a with
  | nil => simp [lastMatch]
  | cons p t ih =>
    simp only [lastMatch, List.foldl_cons] at ih ⊢
    by_cases h : p.1 ≠ "Uncategorized" ∧ p.2 ≠ [] ∧ pyLower details ∈ p.2.map lowerStripKw
    · rw [if_pos h, if_pos h, ih]
      cases hF : t.foldl
          (fun acc q =>
            if q.1 ≠ "Uncategorized" ∧ q.2 ≠ [] ∧
                pyLower details ∈ q.2.map lowerStripKw then
              some q.1
            else acc)
          none <;> simp [Option.or]
    · rw [if_neg h, if_neg h, ih]

theorem foldl_stepRow_category (cats : List (String × List String)) (r : Row) :
    (cats.foldl (fun r' p => stepRow p r') r).category
      = (lastMatch cats r.details).getD r.category := by
  induction cats generalizing r with
  | nil => simp [lastMatch]
  | cons p t ih =>
    simp only [List.foldl_cons]
    rw [ih (stepRow p r), stepRow_details]
    by_cases h : p.1 ≠ "Uncategorized" ∧ p.2 ≠ [] ∧
        pyLower r.details ∈ p.2.map lowerStripKw
    · have hs : stepRow p r = { r with category := p.1 } := by
        unfold stepRow
        rw [if_pos h]
      have hl : lastMatch (p :: t) r.details = (lastMatch t r.details).or (some p.1) := by
        have hacc := lastMatch_acc_or t r.details (some p.1)
        simp only [lastMatch, List.foldl_cons] at hacc ⊢
        rw [if_pos h]
        exact hacc
      rw [hs, hl]
      cases hF : lastMatch t r.details <;> simp [Option.or]
    · have hs : stepRow p r = r := by
        unfold stepRow
        rw [if_neg h]
      have hl : lastMatch (p :: t) r.details = lastMatch t r.details := by
        simp only [lastMatch, List.foldl_cons]
        rw [if_neg h]
      rw [hs, hl]

/-- Full functional characterization of the categorizer: each row ends
up with the last matching category of the store (or
`"Uncategorized"`). -/
theorem categorize_eq_map (cats : List (String × List String)) (rows : List Row) :
    categorize_transactions cats rows
      = rows.map fun r =>
          { r with category := (lastMatch cats r.details).getD "Uncategorized" } := by
  unfold categorize_transactions
  rw [foldl_categorizeStep_eq_map, List.map_map]
  apply List.map_congr_left
  intro r _
  obtain ⟨c, hc⟩ := foldl_stepRow_exists cats { r with category := "Uncategorized" }
  have hcat := foldl_stepRow_category cats { r with category := "Uncategorized" }
  simp only [Function.comp_apply]
  rw [hc] at hcat ⊢
  simp only at hcat
  rw [hcat]

theorem lastMatch_sound (cats : List (String × List String)) (details c : String)
    (h : lastMatch cats details = some c) :
    c ≠ "Uncategorized" ∧
      ∃ kws, (c, kws) ∈ cats ∧ pyLower details ∈ kws.map lowerStripKw := by
  induction cats with
  | nil => simp [lastMatch] at h
  | cons p t ih =>
    have hsplit : lastMatch (p :: t) details
        = (lastMatch t details).or
            (if p.1 ≠ "Uncategorized" ∧ p.2 ≠ [] ∧
                pyLower details ∈ p.2.map lowerStripKw then
              some p.1
            else none) := by
      by_cases hc : p.1 ≠ "Uncategorized" ∧ p.2 ≠ [] ∧
          pyLower details ∈ p.2.map lowerStripKw
      · have hacc := lastMatch_acc_or t details (some p.1)
        simp only [lastMatch, List.foldl_cons] at hacc ⊢
        rw [if_pos hc]
        exact hacc
      · simp only [lastMatch, List.foldl_cons]
        rw [if_neg hc]
        cases hF : List.foldl
            (fun acc q =>
              if q.1 ≠ "Uncategorized" ∧ q.2 ≠ [] ∧
                  pyLower details ∈ q.2.map lowerStripKw then
                some q.1
              else acc)
            none t <;> simp [lastMatch, hF, Option.or]
    rw [hsplit] at h
    cases hF : lastMatch t details with
    | some c' =>
      rw [hF] at h
      simp [Option.or] at h
      subst h
      obtain ⟨hne, kws, hmem, hkw⟩ := ih hF
      exact ⟨hne, kws, List.mem_cons_of_mem p hmem, hkw⟩
    | none =>
      rw [hF] at h
      by_cases hc : p.1 ≠ "Uncategorized" ∧ p.2 ≠ [] ∧
          pyLower details ∈ p.2.map lowerStripKw
      · rw [if_pos hc] at h
        simp [Option.or] at h
        subst h
        exact ⟨hc.1, p.2, by simp, hc.2.2⟩
      · rw [if_neg hc] at h
        simp [Option.or] at h

theorem sum_filter_split (p : Row → Prop) [DecidablePred p] (rows : List Row) :
    ((rows.filter fun r => p r).map Row.amount).sum
        + ((rows.filter fun r => ¬ p r).map Row.amount).sum
      = (rows.map Row.amount).sum := by
  induction rows with
  | nil => simp
  | cons r t ih =>
    simp only [List.filter_cons]
    by_cases h : p r
    · rw [if_pos (by simp [h]), if_neg (by simp [h])]
      simp only [List.map_cons, List.sum_cons]
      rw [add_assoc, ih]
    · rw [if_neg (by simp [h]), if_pos (by simp [h])]
      simp only [List.map_cons, List.sum_cons]
      rw [← ih]
      ring

theorem filter_eq_of_filter_ne (rows : List Row) (c k : String) (h : k ≠ c) :
    ((rows.filter fun r => ¬ r.category = c).filter fun r => r.category = k)
      = rows.filter fun r => r.category = k := by
  induction rows with
  | nil => rfl
  | cons r t ih =>
    simp only [List.filter_cons]
    by_cases hc : r.category = c
    · have hk : ¬ r.category = k := by
        rw [hc]
        exact fun hh => h hh.symm
      rw [if_neg (by simp [hc]), if_neg (by simp [hk]), ih]
    · rw [if_pos (by simp [hc]), List.filter_cons]
      by_cases hk : r.category = k
      · rw [if_pos (by simp [hk]), if_pos (by simp [hk]), ih]
      · rw [if_neg (by simp [hk]), if_neg (by simp [hk]), ih]

theorem sum_groupSum (keys : List String) (rows : List Row)
    (hnd : keys.Nodup) (hcov : ∀ r ∈ rows, r.category ∈ keys) :
    (keys.map (groupSum rows)).sum = (rows.map Row.amount).sum := by
  induction keys generalizing rows with
  | nil =>
    cases rows with
    | nil => simp
    | cons r t => exact absurd (hcov r (by simp)) (by simp)
  | cons c ks ih =>
    have hnd' : ks.Nodup := (List.nodup_cons.mp hnd).2
    have hcnotin : c ∉ ks := (List.nodup_cons.mp hnd).1
    have hcov' : ∀ r ∈ rows.filter fun r => ¬ r.category = c, r.category ∈ ks := by
      intro r hr
      rw [List.mem_filter] at hr
      have h1 := hcov r hr.1
      have h2 : ¬ r.category = c := by simpa using hr.2
      cases List.mem_cons.mp h1 with
      | inl he => exact absurd he h2
      | inr hm => exact hm
    have hB := ih (rows.filter fun r => ¬ r.category = c) hnd' hcov'
    have hmapeq : ks.map (groupSum rows)
        = ks.map (groupSum (rows.filter fun r => ¬ r.category = c)) := by
      apply List.map_congr_left
      intro k hk
      have hkc : k ≠ c := fun he => hcnotin (he ▸ hk)
      unfold groupSum
      rw [filter_eq_of_filter_ne rows c k hkc]
    simp only [List.map_cons, List.sum_cons]
    rw [hmapeq, hB]
    have := sum_filter_split (fun r => r.category = c) rows
    rw [← this]
    rfl

/-- C1: Categorizer soundness — after `categorize_transactions` runs,
every row's assigned category is either `"Uncategorized"` or a category
of the store whose keyword set contains the row's lowercased, trimmed
detail text, the stored keyword being compared after lowercasing and
trimming. -/
theorem categorizer_sound (cats : List (String × List String)) (rows : List Row) :
    ∀ r ∈ categorize_transactions cats rows,
      r.category = "Uncategorized" ∨
        ∃ kws, (r.category, kws) ∈ cats ∧
          pyStrip (pyLower r.details) ∈ kws.map lowerStripKw := by
  intro r hr
  rw [categorize_eq_map] at hr
  obtain ⟨r0, _, rfl⟩ := List.mem_map.mp hr
  cases hF : lastMatch cats r0.details with
  | none => exact Or.inl rfl
  | some c =>
    right
    obtain ⟨_, kws, hmem, hkw⟩ := lastMatch_sound cats r0.details c hF
    obtain ⟨k, hk, hkeq⟩ := List.mem_map.mp hkw
    have hstrip : pyStrip (pyLower r0.details) = lowerStripKw k := by
      rw [← hkeq]
      exact pyStrip_idem (pyLower k)
    show ∃ kws, (c, kws) ∈ cats ∧
        pyStrip (pyLower r0.details) ∈ kws.map lowerStripKw
    rw [hstrip]
    exact ⟨kws, hmem, List.mem_map_of_mem lowerStripKw hk⟩

/-- C1 witness: a concrete categorized row satisfies the soundness
disjunction. -/
theorem categorizer_sound_witness :
    rowCoffeeOut.category = "Uncategorized" ∨
      ∃ kws, (rowCoffeeOut.category, kws) ∈ [("Food", ["coffee shop"])] ∧
        pyStrip (pyLower rowCoffeeOut.details) ∈ kws.map lowerStripKw :=
  categorizer_sound [("Food", ["coffee shop"])] [rowCoffeeIn] rowCoffeeOut
    (by with_unfolding_all decide)

/-- C2 counterexample: with two categories `"A"`, `"B"` (in that
insertion order) both holding the keyword `"x"`, the row with details
`"x"` ends in `"B"` — the claim that the first matching category is
kept and not overwritten by a later match fails. -/
theorem first_match_counterexample :
    (categorize_transactions [("A", ["x"]), ("B", ["x"])] [rowX]).map Row.category
        = ["B"]
    ∧ (categorize_transactions [("A", ["x"]), ("B", ["x"])] [rowX]).map Row.category
        ≠ ["A"] := by
  with_unfolding_all decide

/-- C2 (amended): the categorizer assigns every row the LAST matching
category in the store's insertion order — each later-iterated matching
category overwrites the earlier assignment; rows with no matching
category keep `"Uncategorized"`. -/
theorem categorizer_last_match_wins (cats : List (String × List String))
    (rows : List Row) :
    categorize_transactions cats rows
      = rows.map fun r =>
          { r with category := (lastMatch cats r.details).getD "Uncategorized" } :=
  categorize_eq_map cats rows

/-- C8: Categorizer idempotence — re-running `categorize_transactions`
with an unchanged Category Store on its own output reproduces it. -/
theorem categorizer_idempotent (cats : List (String × List String)) (rows : List Row) :
    categorize_transactions cats (categorize_transactions cats rows)
      = categorize_transactions cats rows := by
  rw [categorize_eq_map cats rows, categorize_eq_map cats
    (rows.map fun r =>
      { r with category := (lastMatch cats r.details).getD "Uncategorized" }),
    List.map_map]
  rfl

/-- C3 counterexample: calling `add_keyword_to_category` with an
unknown category and a nonempty keyword raises `KeyError` (modelled
`none`); it is not a no-op returning `False`. -/
theorem add_keyword_unknown_category_raises :
    add_keyword_to_category initStore "Food" "coffee" = none
    ∧ add_keyword_to_category initStore "Food" "coffee" ≠ some (initStore, false) := by
  with_unfolding_all decide

/-- C3 (amended): `add_keyword_to_category` trims the keyword first; an
empty trimmed keyword is a `False` no-op; a nonempty keyword with an
unknown category raises (`none`); for a known category a duplicate is a
`False` no-op, and otherwise the trimmed keyword is appended to that
category's list, the category document is persisted, and `True` is
returned, with the budget state untouched. -/
theorem add_keyword_contract (s : Store) (category keyword : String) :
    (pyStrip keyword = "" →
        add_keyword_to_category s category keyword = some (s, false))
    ∧ (pyStrip keyword ≠ "" → lookupA s.categories category = none →
        add_keyword_to_category s category keyword = none)
    ∧ (∀ kws, lookupA s.categories category = some kws → pyStrip keyword ≠ "" →
        pyStrip keyword ∈ kws →
        add_keyword_to_category s category keyword = some (s, false))
    ∧ (∀ kws, lookupA s.categories category = some kws → pyStrip keyword ≠ "" →
        pyStrip keyword ∉ kws →
        ∃ s', add_keyword_to_category s category keyword = some (s', true)
          ∧ lookupA s'.categories category = some (kws ++ [pyStrip keyword])
          ∧ s'.catDisk = some s'.categories
          ∧ s'.budgets = s.budgets ∧ s'.budDisk = s.budDisk) := by
  refine ⟨?_, ?_, ?_, ?_⟩
  · intro h
    simp only [add_keyword_to_category]
    rw [if_pos h]
  · intro h1 h2
    simp only [add_keyword_to_category]
    rw [if_neg h1, h2]
  · intro kws hks h1 h2
    simp only [add_keyword_to_category]
    rw [if_neg h1, hks]
    dsimp only
    rw [if_neg (by simpa using h2)]
  · intro kws hks h1 h2
    refine ⟨save_categories
      { s with categories := updateA s.categories category (kws ++ [pyStrip keyword]) },
      ?_, ?_, rfl, rfl, rfl⟩
    · simp only [add_keyword_to_category]
      rw [if_neg h1, hks]
      dsimp only
      rw [if_pos h2]
    · show lookupA (updateA s.categories category (kws ++ [pyStrip keyword])) category
        = some (kws ++ [pyStrip keyword])
      apply lookupA_updateA_self
      rw [hks]
      rfl

/-- C3 witness: the four contract cases at concrete inputs — blank
keyword, unknown category, duplicate keyword, and a successful
append. -/
theorem add_keyword_contract_witness :
    add_keyword_to_category storeFoodA "Food" "   " = some (storeFoodA, false)
    ∧ add_keyword_to_category storeFoodA "Nope" "coffee" = none
    ∧ add_keyword_to_category storeFoodA "Food" " a " = some (storeFoodA, false)
    ∧ (∃ s', add_keyword_to_category storeFoodA "Food" " b " = some (s', true)
        ∧ lookupA s'.categories "Food" = some (["a"] ++ [pyStrip " b "])
        ∧ s'.catDisk = some s'.categories
        ∧ s'.budgets = storeFoodA.budgets ∧ s'.budDisk = storeFoodA.budDisk) :=
  ⟨(add_keyword_contract storeFoodA "Food" "   ").1 (by with_unfolding_all decide),
   (add_keyword_contract storeFoodA "Nope" "coffee").2.1
     (by with_unfolding_all decide) (by with_unfolding_all decide),
   (add_keyword_contract storeFoodA "Food" " a ").2.2.1 ["a"]
     (by with_unfolding_all decide) (by with_unfolding_all decide)
     (by with_unfolding_all decide),
   (add_keyword_contract storeFoodA "Food" " b ").2.2.2 ["a"]
     (by with_unfolding_all decide) (by with_unfolding_all decide)
     (by with_unfolding_all decide)⟩

/-- C4: the `% Used` column is exactly `0` when the budget is `0`,
equals `round(100 * amount / budget, 1)` for a positive budget, and in
particular a positive budget fully spent reads exactly `100`. -/
theorem percent_used_spec (amount budget : ℚ) :
    (budget = 0 → percent_used amount budget = 0)
    ∧ (0 < budget → percent_used amount budget = roundTo1 (100 * amount / budget))
    ∧ (0 < budget → percent_used budget budget = 100) := by
  refine ⟨?_, ?_, ?_⟩
  · intro h
    simp [percent_used, h]
  · intro h
    unfold percent_used
    rw [if_pos h, div_mul_eq_mul_div, mul_comm amount 100]
  · intro h
    unfold percent_used
    rw [if_pos h, div_self (ne_of_gt h)]
    unfold roundTo1
    norm_num

/-- C4 witness: the three parts of the `% Used` contract at concrete
inputs, including the boundary case amount = budget. -/
theorem percent_used_spec_witness :
    percent_used 5 0 = 0
    ∧ percent_used 5 4 = roundTo1 (100 * 5 / 4)
    ∧ percent_used 4 4 = 100 :=
  ⟨(percent_used_spec 5 0).1 rfl,
   (percent_used_spec 5 4).2.1 (by norm_num),
   (percent_used_spec 4 4).2.2 (by norm_num)⟩

/-- C5: Aggregation conservation — for any fixed set of debit rows,
the amounts of the Expense Summary rows sum to the amounts of the
input rows: the group-by-sum drops no row and counts none twice. -/
theorem aggregation_conservation (budgets : List (String × ℚ)) (rows : List Row) :
    ((expense_summary budgets rows).map TotalsRow.amount).sum
      = (rows.map Row.amount).sum := by
  have h1 : (expense_summary budgets rows).map TotalsRow.amount
      = (sortByAmountDesc (groupedTotals rows)).map Prod.snd := by
    unfold expense_summary
    rw [List.map_map]
    rfl
  have h2 : ((sortByAmountDesc (groupedTotals rows)).map Prod.snd).sum
      = ((groupedTotals rows).map Prod.snd).sum := by
    unfold sortByAmountDesc
    exact ((List.perm_insertionSort _ (groupedTotals rows)).map Prod.snd).sum_eq
  have h3 : (groupedTotals rows).map Prod.snd
      = (List.insertionSort (· ≤ ·) (rows.map Row.category).dedup).map
          (groupSum rows) := by
    unfold groupedTotals
    rw [List.map_map]
    rfl
  have h4 : ((List.insertionSort (· ≤ ·) (rows.map Row.category).dedup).map
        (groupSum rows)).sum
      = (((rows.map Row.category).dedup).map (groupSum rows)).sum :=
    ((List.perm_insertionSort _ ((rows.map Row.category).dedup)).map
      (groupSum rows)).sum_eq
  rw [h1, h2, h3, h4]
  apply sum_groupSum
  · exact List.nodup_dedup _
  · intro r hr
    exact List.mem_dedup.mpr (List.mem_map_of_mem Row.category hr)

/-- Folding in `add_category` when the name is already present (or
blank): the branch is not taken and the whole store is unchanged. -/
theorem add_category_of_present (s : Store) (name : String)
    (h : lookupA s.categories name ≠ none) : add_category s name = s := by
  unfold add_category
  rw [if_neg fun hcon => h hcon.2]

/-- Unfolding of `add_category` in the fresh-name branch. -/
theorem add_category_of_fresh (s : Store) (name : String)
    (h1 : name ≠ "") (h2 : lookupA s.categories name = none) :
    add_category s name
      = { categories := s.categories ++ [(name, [])],
          budgets := setdefaultA s.budgets name 0,
          catDisk := some (s.categories ++ [(name, [])]),
          budDisk := some (setdefaultA s.budgets name 0) } := by
  unfold add_category
  rw [if_pos ⟨h1, h2⟩]

/-- C6 counterexample: starting from a budget document that already
holds an orphan `("Food", 5)` entry, adding the fresh category `"Food"`
keeps the budget at `5` — no zero-valued budget entry is created. -/
theorem add_category_budget_counterexample :
    lookupA (startup (some [("Uncategorized", [])]) (some [("Food", 5)])).categories
        "Food" = none
    ∧ lookupA (add_category
        (startup (some [("Uncategorized", [])]) (some [("Food", 5)])) "Food").budgets
        "Food" = some 5
    ∧ (some (5 : ℚ)) ≠ some (0 : ℚ) := by
  with_unfolding_all decide

/-- C6 (amended): adding an existing name is a no-op; adding a fresh
nonempty name creates an empty keyword set, `setdefault`s the budget
entry to `0` — preserving any value the budget document already held
for that name — and persists both documents; the operation is
idempotent. -/
theorem add_category_contract (s : Store) (name : String) :
    (lookupA s.categories name ≠ none → add_category s name = s)
    ∧ (name ≠ "" → lookupA s.categories name = none →
        lookupA (add_category s name).categories name = some []
        ∧ lookupA (add_category s name).budgets name
            = some ((lookupA s.budgets name).getD 0)
        ∧ (add_category s name).catDisk = some (add_category s name).categories
        ∧ (add_category s name).budDisk = some (add_category s name).budgets)
    ∧ add_category (add_category s name) name = add_category s name := by
  refine ⟨add_category_of_present s name, ?_, ?_⟩
  · intro h1 h2
    rw [add_category_of_fresh s name h1 h2]
    refine ⟨?_, ?_, rfl, rfl⟩
    · show lookupA (s.categories ++ [(name, [])]) name = some []
      rw [lookupA_append_of_none _ _ _ h2]
      simp [lookupA]
    · show lookupA (setdefaultA s.budgets name 0) name
        = some ((lookupA s.budgets name).getD 0)
      unfold setdefaultA
      cases hv : lookupA s.budgets name with
      | none =>
        rw [if_neg (by simp)]
        rw [lookupA_append_of_none _ _ _ hv]
        simp [lookupA]
      | some v =>
        rw [if_pos (show (some v).isSome = true from rfl), hv]
        rfl
  · by_cases hc : name ≠ "" ∧ lookupA s.categories name = none
    · apply add_category_of_present
      rw [add_category_of_fresh s name hc.1 hc.2]
      show lookupA (s.categories ++ [(name, [])]) name ≠ none
      rw [lookupA_append_of_none _ _ _ hc.2]
      simp [lookupA]
    · have hs : add_category s name = s := by
        unfold add_category
        rw [if_neg hc]
      rw [hs]
      exact hs

/-- C6 witness: the duplicate no-op at `"Uncategorized"`, the
fresh-name contract at `"Food"`, and idempotence, all on the initial
store. -/
theorem add_category_contract_witness :
    add_category initStore "Uncategorized" = initStore
    ∧ (lookupA (add_category initStore "Food").categories "Food" = some []
        ∧ lookupA (add_category initStore "Food").budgets "Food"
            = some ((lookupA initStore.budgets "Food").getD 0)
        ∧ (add_category initStore "Food").catDisk
            = some (add_category initStore "Food").categories
        ∧ (add_category initStore "Food").budDisk
            = some (add_category initStore "Food").budgets)
    ∧ add_category (add_category initStore "Food") "Food"
        = add_category initStore "Food" :=
  ⟨(add_category_contract initStore "Uncategorized").1 (by with_unfolding_all decide),
   (add_category_contract initStore "Food").2.1 (by with_unfolding_all decide)
     (by with_unfolding_all decide),
   (add_category_contract initStore "Food").2.2⟩

/-- Exhaustive case analysis of `add_keyword_to_category`: it raises,
or returns the unchanged store, or appends the trimmed keyword to the
targeted category's list and saves the category document. -/
theorem add_keyword_cases (s : Store) (c k : String) :
    add_keyword_to_category s c k = none
    ∨ (∃ b, add_keyword_to_category s c k = some (s, b))
    ∨ (∃ kws, lookupA s.categories c = some kws ∧
        add_keyword_to_category s c k
          = some (save_categories
              { s with categories := updateA s.categories c (kws ++ [pyStrip k]) },
            true)) := by
  by_cases hkw : pyStrip k = ""
  · refine Or.inr (Or.inl ⟨false, ?_⟩)
    simp only [add_keyword_to_category]
    rw [if_pos hkw]
  · cases hL : lookupA s.categories c with
    | none =>
      refine Or.inl ?_
      simp only [add_keyword_to_category]
      rw [if_neg hkw, hL]
    | some kws =>
      by_cases hm : pyStrip k ∉ kws
      · refine Or.inr (Or.inr ⟨kws, rfl, ?_⟩)
        simp only [add_keyword_to_category]
        rw [if_neg hkw, hL]
        dsimp only
        rw [if_pos hm]
      · refine Or.inr (Or.inl ⟨false, ?_⟩)
        simp only [add_keyword_to_category]
        rw [if_neg hkw, hL]
        dsimp only
        rw [if_neg hm]

/-- Any single allowed operation preserves the reserved-bucket
invariant. -/
theorem runOp_uncatInv (s : Store) (op : Op) (hI : uncatInv s)
    (hop : opAllowed op = true) : uncatInv (runOp s op) := by
  cases op with
  | addCategory n =>
    show uncatInv (add_category s n)
    by_cases hc : n ≠ "" ∧ lookupA s.categories n = none
    · rw [add_category_of_fresh s n hc.1 hc.2]
      have hmem : lookupA (s.categories ++ [(n, [])]) "Uncategorized" = some [] :=
        lookupA_append_of_some _ _ _ _ hI.1
      refine ⟨hmem, ?_⟩
      intro doc hdoc
      rw [← Option.some.inj hdoc]
      exact hmem
    · have hs : add_category s n = s := by
        unfold add_category
        rw [if_neg hc]
      rw [hs]
      exact hI
  | applyChange c d =>
    have hc : c ≠ "Uncategorized" := by
      simpa [opAllowed] using hop
    show uncatInv (apply_change s c d)
    unfold apply_change
    rcases add_keyword_cases s c d with h | ⟨b, h⟩ | ⟨kws, hL, h⟩
    · rw [h]
      exact hI
    · rw [h]
      exact hI
    · rw [h]
      have hmem : lookupA (updateA s.categories c (kws ++ [pyStrip d]))
          "Uncategorized" = some [] := by
        rw [lookupA_updateA_ne _ _ _ _ (Ne.symm hc)]
        exact hI.1
      refine ⟨hmem, ?_⟩
      intro doc hdoc
      rw [← Option.some.inj hdoc]
      exact hmem
  | setBudget c v => exact hI
  | saveBudgets => exact hI
  | restart =>
    show uncatInv (startup s.catDisk s.budDisk)
    cases hd : s.catDisk with
    | none =>
      refine ⟨rfl, ?_⟩
      intro doc hdoc
      exact Option.noConfusion hdoc
    | some doc =>
      refine ⟨hI.2 doc hd, ?_⟩
      intro doc' hdoc
      rw [← Option.some.inj hdoc]
      exact hI.2 doc hd

/-- A sequence of allowed operations preserves the reserved-bucket
invariant. -/
theorem runOps_uncatInv (ops : List Op) (s : Store) (hI : uncatInv s)
    (h : ops.all opAllowed = true) : uncatInv (runOps s ops) := by
  induction ops generalizing s with
  | nil => exact hI
  | cons op t ih =>
    rw [List.all_cons, Bool.and_eq_true] at h
    exact ih (runOp s op) (runOp_uncatInv s op hI h.1) h.2

/-- C7 counterexample: reassigning a row (here one categorized as
`"Food"` with details `"Coffee Shop"`) back to `"Uncategorized"` in the
Apply Changes loop teaches that detail text to the reserved bucket —
its keyword set does not stay empty. -/
theorem uncategorized_gains_keyword_counterexample :
    lookupA (runOps initStore
        [Op.addCategory "Food",
          Op.applyChange "Uncategorized" "Coffee Shop"]).categories "Uncategorized"
      = some ["Coffee Shop"]
    ∧ some ["Coffee Shop"] ≠ some ([] : List String) := by
  with_unfolding_all decide

/-- C7 (amended): starting from the default store, after any sequence
of add-category, budget, save, reload and Apply-Changes operations in
which no row is reassigned TO `"Uncategorized"`, the keyword set of
`"Uncategorized"` is still empty. -/
theorem uncategorized_keywords_stay_empty (ops : List Op)
    (h : ops.all opAllowed = true) :
    lookupA (runOps initStore ops).categories "Uncategorized" = some [] := by
  have hinit : uncatInv initStore := by
    refine ⟨rfl, ?_⟩
    intro doc hdoc
    exact Option.noConfusion hdoc
  exact (runOps_uncatInv ops initStore hinit h).1

/-- C7 witness: a concrete allowed session — category creation, budget
edits, a save, a learning event into `"Food"`, and a restart — leaves
the reserved bucket's keyword set empty. -/
theorem uncategorized_keywords_stay_empty_witness :
    lookupA (runOps initStore
        [Op.addCategory "Food", Op.setBudget "Food" 10, Op.saveBudgets,
          Op.applyChange "Food" "Coffee Shop", Op.restart]).categories
        "Uncategorized" = some [] :=
  uncategorized_keywords_stay_empty
    [Op.addCategory "Food", Op.setBudget "Food" 10, Op.saveBudgets,
      Op.applyChange "Food" "Coffee Shop", Op.restart]
    (by with_unfolding_all decide)

/-- C9: the end-to-end example — the load succeeds with no error, the
Expense Summary is the single row (Food, 7.70, 10.0, 2.30, 77.0) and
the credit total is 2000.00 (7.70 = 77/10, 2.30 = 23/10 as exact
rationals). -/
theorem end_to_end_example :
    run_pipeline storeC9 rawsC9
      = { errors := [], expenses := some [totalsC9], totalPayments := some 2000 } := by
  with_unfolding_all decide

/-- C10: Load-failure atomicity — whenever the CSV coercion fails,
`load_transactions` produces the single error message and no row-set,
and the rendered page holds exactly one error, no Expense Summary and
no Total Payments. -/
theorem load_failure_atomic (s : Store) (raws : List RawRow)
    (h : parseRows raws = none) :
    load_transactions s.categories raws = .err "Error loading file"
    ∧ (run_pipeline s raws).errors.length = 1
    ∧ (run_pipeline s raws).expenses = none
    ∧ (run_pipeline s raws).totalPayments = none := by
  have hl : load_transactions s.categories raws = .err "Error loading file" := by
    unfold load_transactions
    rw [h]
  refine ⟨hl, ?_, ?_, ?_⟩ <;> simp [run_pipeline, hl]

/-- C10 witness: the atomic failure on a concrete malformed upload. -/
theorem load_failure_atomic_witness :
    load_transactions initStore.categories rawsBadAmount = .err "Error loading file"
    ∧ (run_pipeline initStore rawsBadAmount).errors.length = 1
    ∧ (run_pipeline initStore rawsBadAmount).expenses = none
    ∧ (run_pipeline initStore rawsBadAmount).totalPayments = none :=
  load_failure_atomic initStore rawsBadAmount (by with_unfolding_all decide)

end FinApp
